import Mathlib

/-!
Verification of `src/cc/CoinbaseGuard.cpp` (Verus coinbase-guard / nothing-at-stake
fraud-proof module) against its natural-language specification.

The module's own code is translated definition by definition.  External
collaborators (script opcode parsing, `CPubKey`, `COptCCParams`, transaction
(de)serialization, chain lookups, `Solver`, `VerifyScript`, the Verus hash) live
in other files of the repository that are not part of `src/`; each of those is
modelled from the spec (doc comments say so explicitly) either as a concrete
executable definition following the spec's words or as a field of the `ChainEnv`
record of injected services (spec section 6 lists exactly these contracts).

Machine integers are modelled as `Nat` with explicit `% 2^32` where the C++
performs `uint32_t` arithmetic.  Byte vectors are `List Nat` (each entry a byte,
values < 256 in every reachable state).  Fallible operations return `Option`.
-/

/-! ## Script opcode constants (script/script.h, not in src; modelled from the spec) -/

/-- OP_0, the empty-push opcode. -/
def OP_0 : Nat := 0x00

/-- OP_PUSHDATA1 opcode byte. -/
def OP_PUSHDATA1 : Nat := 0x4c

/-- OP_PUSHDATA2 opcode byte. -/
def OP_PUSHDATA2 : Nat := 0x4d

/-- OP_PUSHDATA4 opcode byte. -/
def OP_PUSHDATA4 : Nat := 0x4e

/-- OP_1, the small-integer opcode pushing 1. -/
def OP_1 : Nat := 0x51

/-- OP_16, the small-integer opcode pushing 16. -/
def OP_16 : Nat := 0x60

/-- OP_RETURN opcode byte, marking an unspendable data-carrier output. -/
def OP_RETURN : Nat := 0x6a

/-- Modelled from the spec: the stake-params type tag (CoinbaseGuard.h is not in
src/; the spec only requires it to be a distinguished 1-byte tag). -/
def OPRETTYPE_STAKEPARAMS : Nat := 1

/-- Modelled from the spec: the cheat-evidence tag (`evidenceTag` of spec
section 4.5; CoinbaseGuard.h is not in src/). -/
def OPRETTYPE_STAKECHEAT : Nat := 2

/-- Modelled from the spec: the eval code identifying this contract
(CoinbaseGuard.h is not in src/; the value is irrelevant, only its identity). -/
def EVAL_COINBASEGUARD : Nat := 1

/-- Modelled from the spec: minimum supported metadata chunk count
(CoinbaseGuard.h is not in src/; spec section 4.1: "chunk count must be 4 or 5"). -/
def STAKE_MINPARAMS : Nat := 4

/-- Modelled from the spec: maximum supported metadata chunk count
(CoinbaseGuard.h is not in src/; spec section 4.1: "chunk count must be 4 or 5"). -/
def STAKE_MAXPARAMS : Nat := 5

/-- The all-zero 256-bit hash (`uint256()`), as its 32-byte little-endian vector. -/
def zero32 : List Nat := List.replicate 32 0

/-! ## Byte-chunk script parsing (CScript::GetOp / serialization of pushes).
`CScript` lives in script/script.h, not in src/; this parser is modelled from the
spec (section 4.1: "each chunk either a literal push of ≤520 bytes or a
small-integer opcode equivalent to a single byte 1–16"), following the standard
Bitcoin push-opcode wire format the repository uses. -/

/-- Modelled from the spec: one step of `CScript::GetOp` over a byte sequence.
Returns `(opcode, pushed data, remaining bytes)`, or `none` when the script is
exhausted or a push runs past the end. -/
def getOp : List Nat → Option (Nat × List Nat × List Nat)
  | [] => none
  | b :: rest =>
    if b < OP_PUSHDATA1 then
      if rest.length < b then none else some (b, rest.take b, rest.drop b)
    else if b = OP_PUSHDATA1 then
      match rest with
      | n :: r2 => if r2.length < n then none else some (b, r2.take n, r2.drop n)
      | [] => none
    else if b = OP_PUSHDATA2 then
      match rest with
      | n0 :: n1 :: r2 =>
        let n := n0 + 256 * n1
        if r2.length < n then none else some (b, r2.take n, r2.drop n)
      | _ => none
    else if b = OP_PUSHDATA4 then
      match rest with
      | n0 :: n1 :: n2 :: n3 :: r2 =>
        let n := n0 + 256 * n1 + 65536 * n2 + 16777216 * n3
        if r2.length < n then none else some (b, r2.take n, r2.drop n)
      | _ => none
    else some (b, [], rest)

/-- Modelled from the spec: `CScript::operator<<(std::vector<unsigned char>)`,
the serialization of one literal data push. -/
def pushData (d : List Nat) : List Nat :=
  if d.length < OP_PUSHDATA1 then d.length :: d
  else if d.length ≤ 0xff then OP_PUSHDATA1 :: d.length :: d
  else if d.length ≤ 0xffff then OP_PUSHDATA2 :: d.length % 256 :: d.length / 256 :: d
  else OP_PUSHDATA4 :: d.length % 256 :: d.length / 256 % 256 :: d.length / 65536 % 256 ::
       d.length / 16777216 % 256 :: d

/-- The opcode byte `pushData` emits for a chunk of the given length. -/
def pushOpcode (d : List Nat) : Nat :=
  if d.length < OP_PUSHDATA1 then d.length
  else if d.length ≤ 0xff then OP_PUSHDATA1
  else if d.length ≤ 0xffff then OP_PUSHDATA2
  else OP_PUSHDATA4

/-- Modelled from the spec: `CScript::operator<<(int64_t)` for the small values
1–16 used by the evidence tag, which are encoded as the single opcode OP_N. -/
def pushSmallInt (v : Nat) : List Nat := [OP_1 + v - 1]

/-- Lines 21-24: `IsData` — a data-carrying opcode is a literal push
(≤ OP_PUSHDATA4) or a small-integer opcode OP_1..OP_16. -/
def IsData (op : Nat) : Bool := (op ≤ OP_PUSHDATA4) || (OP_1 ≤ op && op ≤ OP_16)

/-- Modelled from the spec: the chunk-collection loop of `CScript::GetOpretData`
(script library, not in src/): parse every remaining operation, collecting the
pushed bytes of each.  `fuel` is an upper bound on the number of operations;
every call site passes the byte length of the script, which suffices because
each successful `getOp` consumes at least one byte. -/
def collectOpsF : Nat → List Nat → Option (List (List Nat))
  | _, [] => some []
  | 0, _ :: _ => none
  | fuel + 1, b :: r =>
    match getOp (b :: r) with
    | none => none
    | some (_, vch, rest) => (collectOpsF fuel rest).map (vch :: ·)

/-! ## Transaction data model.  CTransaction/CTxIn/CTxOut/CScript live in the
primitives and script libraries (not in src/); only the fields this module
reads are modelled, following the spec's data model (section 3). -/

/-- Modelled from the spec: a crypto-condition parameter block
(`COptCCParams` of the script library, not in src/): version, eval code,
an m-of-n key arrangement, and the metadata chunk vector. -/
structure COptCCParams where
  version : Nat
  evalCode : Nat
  m : Nat
  n : Nat
  vKeys : List (List Nat)
  vData : List (List Nat)
deriving DecidableEq

/-- Modelled from the spec: `COptCCParams::VERSION`. -/
def COptCCParams.VERSION : Nat := 1

/-- Modelled from the spec: `COptCCParams::IsValid`, true when the block
deserialized to a recognized version. -/
def COptCCParams.IsValid (p : COptCCParams) : Bool := p.version ≠ 0

/-- Modelled from the spec: an output script, either raw script bytes or a
pay-to-crypto-condition script carrying appended `COptCCParams` blocks
(the two shapes this module constructs and inspects). -/
inductive CScript where
  | raw (bytes : List Nat)
  | ccout (conds : List COptCCParams)
deriving DecidableEq

instance : Inhabited CScript := ⟨CScript.raw []⟩

/-- Modelled from the spec: `CScript::IsOpReturn` — the script starts with
OP_RETURN (the unspendable data-carrier form). -/
def CScript.IsOpReturn : CScript → Bool
  | .raw (b :: _) => b = OP_RETURN
  | _ => false

/-- Modelled from the spec: `CScript::IsPayToCryptoCondition(&dummy, vParams)`
as used at line 246 — succeeds on a crypto-condition output and yields the
appended parameter blocks. -/
def CScript.ccParams : CScript → Option (List COptCCParams)
  | .ccout conds => some conds
  | _ => none

/-- Modelled from the spec: `CScript::GetOpretData` — for an OP_RETURN script,
the ordered sequence of byte-chunks of the operations following OP_RETURN. -/
def GetOpretData : CScript → Option (List (List Nat))
  | .raw (b :: rest) => if b = OP_RETURN then collectOpsF rest.length rest else none
  | _ => none

/-- An outpoint: source transaction id (32-byte hash) and output index. -/
structure COutPoint where
  hash : List Nat
  n : Nat
deriving DecidableEq

/-- A transaction input: previous outpoint and signature script bytes. -/
structure CTxIn where
  prevout : COutPoint
  scriptSig : List Nat
deriving DecidableEq

instance : Inhabited CTxIn := ⟨⟨⟨zero32, 0⟩, []⟩⟩

/-- A transaction output: amount and locking script. -/
structure CTxOut where
  nValue : Int
  scriptPubKey : CScript
deriving DecidableEq

instance : Inhabited CTxOut := ⟨⟨0, CScript.raw []⟩⟩

/-- A transaction (only the fields this module reads). -/
structure CTransaction where
  vin : List CTxIn
  vout : List CTxOut
deriving DecidableEq

instance : Inhabited CTransaction := ⟨⟨[], []⟩⟩

/-- Modelled from the spec: `CTransaction::IsCoinBase` — a single input whose
prevout is null (zero hash, index 0xFFFFFFFF). -/
def CTransaction.IsCoinBase (tx : CTransaction) : Bool :=
  tx.vin.length = 1 && tx.vin.headI.prevout.hash = zero32 &&
    tx.vin.headI.prevout.n = 0xFFFFFFFF

/-- Modelled from the spec: `CPubKey(std::vector<unsigned char>)` — keep the
bytes when they form a plausibly-encoded key (33-byte compressed with header
2/3, or 65-byte uncompressed with header 4/6/7), otherwise invalidate. -/
def CPubKey.mk (v : List Nat) : List Nat :=
  if ((v.headI = 2 ∨ v.headI = 3) ∧ v.length = 33) ∨
     ((v.headI = 4 ∨ v.headI = 6 ∨ v.headI = 7) ∧ v.length = 65) then v else []

/-- Modelled from the spec: `CPubKey::IsValid` — the stored key is nonempty
(a default-constructed or invalidated key is empty). -/
def CPubKey.IsValid (v : List Nat) : Bool := v ≠ []

/-! ## Stake-metadata codec (lines 26-108). -/

/-- Lines 41-51: the chunk-extraction loop of `UnpackStakeOpRet`.  Arguments
mirror the C++ loop state: the byte cap (`nMaxDatacarrierBytes`), the unread
script bytes `pc`, the running `bytesTotal`, and the accumulated `vData`.
The loop succeeds (C++ `isValid` last assigned true) exactly when the script
end is reached while the running byte total is still within the cap; a parse
failure, a non-data opcode, or exceeding the cap exits with failure.  Small
integer opcodes OP_1..OP_16 are normalized to a single byte (lines 45-49).
`fuel` bounds the iteration count; every call site passes the script's byte
length, which suffices because each `getOp` consumes at least one byte. -/
def unpackLoopF : Nat → Nat → List Nat → Nat → List (List Nat) → Bool × List (List Nat)
  | fuel, cap, pc, bytesTotal, acc =>
    if cap < bytesTotal then (false, acc)
    else if pc = [] then (true, acc)
    else
      match fuel with
      | 0 => (false, acc)
      | fuel + 1 =>
        match getOp pc with
        | none => (false, acc)
        | some (op, vch, rest) =>
          if IsData op then
            let vch := if OP_1 ≤ op ∧ op ≤ OP_16 then [op - OP_1 + 1] else vch
            unpackLoopF fuel cap rest (bytesTotal + vch.length) (acc ++ [vch])
          else (false, acc)

/-- Lines 26-60: `UnpackStakeOpRet`.  Extracts the opret data of the LAST
output (line 28), requires it to be a single chunk, reparses that chunk as a
script of data pushes under the cumulative `nMaxDatacarrierBytes` cap, and
requires between `STAKE_MINPARAMS` and `STAKE_MAXPARAMS` chunks (line 54).
Returns the chunk vector on success (C++ returns it through `vData`).
`cap` abstracts the external constant `nMaxDatacarrierBytes`. -/
def UnpackStakeOpRet (cap : Nat) (stakeTx : CTransaction) : Option (List (List Nat)) :=
  match stakeTx.vout.getLast? with
  | none => none
  | some lastOut =>
    match GetOpretData lastOut.scriptPubKey with
    | some [d] =>
      let r := unpackLoopF d.length cap d 0 []
      if r.1 ∧ STAKE_MINPARAMS ≤ r.2.length ∧ r.2.length ≤ STAKE_MAXPARAMS
      then some r.2 else none
    | some _ => none
    | none => none

/-- The decoded stake-proof metadata (spec section 3, `StakeParams`).
`prevHash` is the 32-byte previous-block hash; `pk` the optional delegate key
(empty = `CPubKey()`, not present). -/
structure CStakeParams where
  srcHeight : Nat
  blkHeight : Nat
  prevHash : List Nat
  pk : List Nat
deriving DecidableEq

instance : Inhabited CStakeParams := ⟨⟨0, 0, zero32, []⟩⟩

/-- Modelled from the spec: `CStakeParams::IsValid` (CoinbaseGuard.h, not in
src/) — `srcHeight = 0` is the distinguished sentinel-invalid state. -/
def CStakeParams.IsValid (p : CStakeParams) : Bool := p.srcHeight ≠ 0

/-- Lines 78-85: the little-endian height reconstruction of the constructor,
`h = h | byte_i << (8*i)`. -/
def orBytesLE (chunk : List Nat) : Nat :=
  (chunk.enum).foldl (fun h p => h ||| (p.2 <<< (8 * p.1))) 0

/-- Lines 62-108: the `CStakeParams` constructor.  Every `vData[i]` vector
access of the C++ is modelled as `List.getElem?`; an out-of-range access (which
the C++ performs unchecked) propagates as `none`, so totality of the decode on
the caller's domain is a provable statement rather than an assumption.  The
short-circuit order of the `&&` chain at lines 72-76 is kept: a failed check
returns the sentinel-invalid default value without touching later chunks. -/
def CStakeParams.ofChunks (vData : List (List Nat)) : Option CStakeParams :=
  match vData[0]? with
  | none => none
  | some v0 =>
    if v0.length = 1 ∧ v0.headI = OPRETTYPE_STAKEPARAMS then
      match vData[1]? with
      | none => none
      | some v1 =>
        if v1.length ≤ 4 then
          match vData[2]? with
          | none => none
          | some v2 =>
            if v2.length ≤ 4 then
              match vData[3]? with
              | none => none
              | some v3 =>
                if v3.length = 32 ∧
                   (vData.length = STAKE_MINPARAMS ∨
                    (vData.length = STAKE_MAXPARAMS ∧ (vData.getD 4 []).length = 33)) then
                  -- all checks of lines 72-76 passed: decode (lines 78-106)
                  let srcHeight := orBytesLE v1
                  let blkHeight := orBytesLE v2
                  if vData.length = 4 then
                    some ⟨srcHeight, blkHeight, v3, []⟩
                  else if (vData.getD 4 []).length = 33 then
                    let pk := CPubKey.mk (vData.getD 4 [])
                    if CPubKey.IsValid pk then some ⟨srcHeight, blkHeight, v3, pk⟩
                    else some ⟨0, blkHeight, v3, pk⟩      -- line 99: invalidate
                  else some ⟨0, blkHeight, v3, []⟩        -- line 105: invalidate (dead)
                else some default
            else some default
        else some default
    else some default

/-- Spec section 3's well-formedness of a decoded chunk vector, stated in the
spec's words (used to express claim C6: every structural violation yields the
sentinel).  Follows the spec, for comparison with `CStakeParams.ofChunks`. -/
def chunksWellFormed (vData : List (List Nat)) : Bool :=
  (vData.getD 0 []).length = 1 && (vData.getD 0 []).headI = OPRETTYPE_STAKEPARAMS &&
  (vData.getD 1 []).length ≤ 4 && (vData.getD 2 []).length ≤ 4 &&
  (vData.getD 3 []).length = 32 &&
  (vData.length = 4 ||
    (vData.length = 5 && (vData.getD 4 []).length = 33 &&
      CPubKey.IsValid (CPubKey.mk (vData.getD 4 []))))

/-! ## External chain services (spec section 6; all live outside src/). -/

/-- The resolved spending-condition kind returned by `Solver`
(`txnouttype` of the script library, not in src/; only the kinds this module
distinguishes are modelled). -/
inductive TxnOutType where
  | pubkey
  | pubkeyhash
  | other
deriving DecidableEq

/-- Modelled from the spec (section 6): the injected read-only collaborator
services and consensus constants consumed by this module.  Each field is one
contract of the spec: confirmed-transaction lookup, block-index lookup,
`Solver`, full key validation, `VerifyScript`, `CurrentEpochBranchId`, the
domain-separated Verus hash over (txid, output index), the transaction
(de)serialization codec, the crypto-condition extraction of the evaluator, and
the constants `VERUS_MIN_STAKEAGE` and `nMaxDatacarrierBytes`. -/
structure ChainEnv where
  getTransaction : List Nat → Option (CTransaction × List Nat)
  blockIndex : List Nat → Option Nat
  solver : CScript → Option (TxnOutType × List (List Nat))
  fullyValid : List Nat → Bool
  verifyScript : CTransaction → CTxOut → Nat → Bool
  branchId : Nat → Nat
  hashUtxo : List Nat → Nat → List Nat
  serializeTx : CTransaction → List Nat
  deserializeTx : List Nat → Option CTransaction
  getCryptoCondition : List Nat → Bool
  getCCParams : CTransaction → Nat →
    Option (CTransaction × List (List Nat) × List (List Nat))
  minStakeAge : Nat
  maxDatacarrierBytes : Nat

/-- Lines 110-126: `GetStakeParams`.  The C++ writes the decoded value into the
caller's `stakeParams` reference whenever the structural pre-checks and the
unpack succeed — even when the decode is sentinel-invalid — and returns
`stakeParams.IsValid()`; on an earlier failure the reference is untouched.
The out-parameter is threaded explicitly: `sp0` is its value on entry and the
second component its value on return. -/
def GetStakeParams (env : ChainEnv) (stakeTx : CTransaction) (sp0 : CStakeParams) :
    Bool × CStakeParams :=
  if stakeTx.vin.length = 1 ∧ stakeTx.vout.length = 2 ∧
     0 < stakeTx.vout.headI.nValue ∧ (stakeTx.vout.getD 1 default).scriptPubKey.IsOpReturn then
    match UnpackStakeOpRet env.maxDatacarrierBytes stakeTx with
    | some vData =>
      match CStakeParams.ofChunks vData with
      | some sp => (sp.IsValid, sp)
      | none => (false, sp0)   -- unreachable: UnpackStakeOpRet yields 4 or 5 chunks
    | none => (false, sp0)
  else (false, sp0)

/-! ## Stake transaction validator (lines 128-183). -/

/-- `uint32_t` subtraction `a - b` (heights are 32-bit; line 157 subtracts with
wrap-around).  Both arguments are below `2^32` in every reachable state. -/
def sub32 (a b : Nat) : Nat := (2 ^ 32 + a - b) % 2 ^ 32

/-- Lines 135-183 up to (but not including) the signature verification: every
check of `ValidateStakeTransaction` that does not depend on `validateSig`,
threading the `stakeParams` out-parameter exactly as the C++ does.  Returns
`(pre-signature checks passed, stakeParams on return, VerifyScript result)`.
The C++ evaluates `VerifyScript` lazily behind `!validateSig ||` (line 168);
the call is pure, so evaluating it eagerly here is equivalent.
Stage by stage: metadata decode (line 142), source-transaction lookup
(line 150), confirming-block lookup (line 152), source-height equality and
minimum stake age in `uint32` arithmetic (lines 156-157), spend-condition
resolution via `Solver` (line 158), staking-key adoption for bare pay-to-key
(lines 160-163), and the accepted script forms (line 164).  The C++ indexes
`srcTx.vout` unchecked (line 158); an out-of-range index is modelled as
failure. -/
def VSTpre (env : ChainEnv) (stakeTx : CTransaction) (sp0 : CStakeParams) :
    Bool × CStakeParams × Bool :=
  match GetStakeParams env stakeTx sp0 with
  | (false, sp) => (false, sp, false)
  | (true, sp) =>
    let prevout := stakeTx.vin.headI.prevout
    match env.getTransaction prevout.hash with
    | none => (false, sp, false)
    | some (srcTx, blkHash) =>
      match env.blockIndex blkHash with
      | none => (false, sp, false)
      | some height =>
        match srcTx.vout[prevout.n]? with
        | none => (false, sp, false)
        | some srcOut =>
          if sp.srcHeight = height ∧ env.minStakeAge ≤ sub32 sp.blkHeight sp.srcHeight then
            match env.solver srcOut.scriptPubKey with
            | none => (false, sp, false)
            | some (txType, vAddr) =>
              let sp := if txType = TxnOutType.pubkey ∧ ¬ CPubKey.IsValid sp.pk
                        then { sp with pk := CPubKey.mk vAddr.headI } else sp
              if txType = TxnOutType.pubkey ∨
                 (txType = TxnOutType.pubkeyhash ∧ env.fullyValid sp.pk) then
                (true, sp, env.verifyScript stakeTx srcOut (env.branchId sp.blkHeight))
              else (false, sp, false)
          else (false, sp, false)

/-- Lines 135-183: `ValidateStakeTransaction`.  Succeeds when every structural
and semantic check passes and, if `validateSig` is set, the input's signature
verifies under the branch id selected by the TARGET height (line 166).
First component is the C++ return value, second the `stakeParams`
out-parameter on return (`sp0` its value on entry). -/
def ValidateStakeTransaction (env : ChainEnv) (stakeTx : CTransaction)
    (sp0 : CStakeParams) (validateSig : Bool) : Bool × CStakeParams :=
  let r := VSTpre env stakeTx sp0
  (r.1 && (!validateSig || r.2.2), r.2.1)

/-! ## Guarded output builder (lines 185-228). -/

/-- Modelled from the spec: the guard-authority public key
(`CPubKey(ParseHex(cp->CChexstr))`, line 190; the contract key bytes live in
the CC library, not in src/). -/
def coinbaseGuardKey : List Nat := 2 :: List.replicate 32 77

/-- Lines 215-219: the target height serialized as exactly 4 little-endian
bytes, `height[i] = (blkHeight >> (8*i)) & 0xff`. -/
def guardHeightChunk (h : Nat) : List Nat :=
  (List.range 4).map (fun i => (h >>> (8 * i)) &&& 0xff)

/-- Lines 185-228: `MakeGuardedOutput`.  Computes the source-coin fingerprint
as the domain-separated hash of the stake input's outpoint (lines 202-207),
requires the stake transaction to decode (line 211), and emits a 1-of-2
crypto-condition output over {destination, guard authority} carrying
`[fingerprint, prevHash, targetHeightLE(4 bytes)]` (lines 214-224).
Returns `none` when the transaction is not a decodable stake transaction
(the C++ then returns false and produces no data-carrying output). -/
def MakeGuardedOutput (env : ChainEnv) (value : Int) (dest : List Nat)
    (stakeTx : CTransaction) : Option CTxOut :=
  let prevout := stakeTx.vin.headI.prevout
  let utxo := env.hashUtxo prevout.hash prevout.n
  match GetStakeParams env stakeTx default with
  | (true, p) =>
    some { nValue := value,
           scriptPubKey := CScript.ccout
             [⟨COptCCParams.VERSION, EVAL_COINBASEGUARD, 1, 2, [dest, coinbaseGuardKey],
               [utxo, p.prevHash, guardHeightChunk p.blkHeight]⟩] }
  | (false, _) => none

/-! ## Matching-stake detector (lines 230-281). -/

/-- Lines 257-261: the recorded-height reconstruction loop of
`ValidateMatchingStake`.  The C++ statement is
`height = height << 8 + ccp.vData[2][i];`
which, by C operator precedence, parses as `height << (8 + byte)` — the
shift amount is `8 + byte`, not `8`.  `uint32_t` arithmetic. -/
def reconstructHeight (chunk : List Nat) : Nat :=
  chunk.foldl (fun height b => (height <<< (8 + b)) % 2 ^ 32) 0

/-- Lines 230-281: `ValidateMatchingStake`.  Returns
`(return value, cheating out-parameter)`; `cheating` starts false (line 236).
Requires a coinbase reward (line 238), a (non-signature) valid candidate stake
transaction (line 241), a crypto-condition output at `voutNum` with at least 3
metadata chunks whose height chunk is at most 4 bytes (lines 246-249), a
fingerprint match (line 263), and then declares cheating when the prevHash
differs and the candidate's target height is at least the reconstructed
recorded height (line 265), or a legitimate re-broadcast when the candidate's
height equals the reconstructed height (line 271).  The signature flag of the
line-241 call uses the declaration's default; the header is not in src/, and
spec section 4.4 states the signature check is not required here.
The C++ indexes `ccTx.vout` unchecked (line 246); out-of-range is modelled as
failure. -/
def ValidateMatchingStake (env : ChainEnv) (ccTx : CTransaction) (voutNum : Nat)
    (stakeTx : CTransaction) : Bool × Bool :=
  if ccTx.IsCoinBase then
    let r := ValidateStakeTransaction env stakeTx default false
    if r.1 then
      let p := r.2
      match ccTx.vout[voutNum]? with
      | none => (false, false)
      | some vo =>
        match vo.scriptPubKey.ccParams with
        | some (ccp :: _) =>
          if (ccp.IsValid && decide (3 ≤ ccp.vData.length)) &&
             decide ((ccp.vData.getD 2 []).length ≤ 4) then
            let utxo := env.hashUtxo stakeTx.vin.headI.prevout.hash
                          stakeTx.vin.headI.prevout.n
            let height := reconstructHeight (ccp.vData.getD 2 [])
            if utxo = ccp.vData.getD 0 [] then
              if p.prevHash ≠ ccp.vData.getD 1 [] ∧ height ≤ p.blkHeight then
                (true, true)
              else if p.blkHeight = height then (true, false)
              else (false, false)
            else (false, false)
          else (false, false)
        | some [] => (false, false)
        | none => (false, false)
    else (false, false)
  else (false, false)

/-! ## Cheat-evidence builder (lines 283-303). -/

/-- Lines 293-300: the evidence output — zero value, OP_RETURN wrapping a
single push of the inner script `[evidenceTag, serialized cheat transaction]`
(the tag is pushed by `CScript::operator<<(int64_t)` as a small-integer
opcode, the serialization as a literal push). -/
def cheatVout (env : ChainEnv) (cheatTx : CTransaction) : CTxOut :=
  { nValue := 0,
    scriptPubKey := CScript.raw
      (OP_RETURN :: pushData
        (pushSmallInt OPRETTYPE_STAKECHEAT ++ pushData (env.serializeTx cheatTx))) }

/-- Lines 283-303: `MakeCheatEvidence`.  Appends the evidence output to the
mutable spending transaction exactly when `ValidateMatchingStake` returns true
with the cheating flag set (line 291); otherwise the transaction is untouched.
(The C++ function is declared `bool` but has no return statement; only its
effect on `mtx` is meaningful, so the updated transaction is returned.) -/
def MakeCheatEvidence (env : ChainEnv) (mtx : CTransaction) (ccTx : CTransaction)
    (voutNum : Nat) (cheatTx : CTransaction) : CTransaction :=
  let r := ValidateMatchingStake env ccTx voutNum cheatTx
  if r.1 && r.2 then { mtx with vout := mtx.vout ++ [cheatVout env cheatTx] } else mtx

/-! ## Spend authorizer (lines 305-362). -/

/-- Lines 305-362: `CoinbaseGuardValidate`, the crypto-condition eval entry
point.  Faithful translation, including line 324: `signedByFirstKey` is the
literal constant `true` (the C++ comment says it "should reflect the truth of
whether the first key did sign the fulfillment", but no inspection of the
fulfillment ever assigns it).  Consequently the evidence branch's guard
`!signedByFirstKey && ...` (line 340) is unreachable, and the function returns
`signedByFirstKey || validCheat` (line 361).  Inside the dead branch the C++
passes `tx` — the spending transaction itself — as the cheat candidate and
`tx.vin[0].prevout.n` as the guarded output index (line 352), which the
translation preserves. -/
def CoinbaseGuardValidate (env : ChainEnv) (tx : CTransaction) (nIn : Nat) : Bool :=
  let signedByFirstKey := true            -- line 324
  if env.getCryptoCondition (tx.vin.getD nIn default).scriptSig then
    match env.getCCParams tx nIn with
    | some (txOut, _preConditions, params) =>
      let validCheat :=
        if ¬ signedByFirstKey ∧ 1 < params.length ∧
           (params.getD 0 []).getD 0 0 = OPRETTYPE_STAKECHEAT then
          match env.deserializeTx (params.getD 1 []) with
          | some _cheatTx =>
            let m := ValidateMatchingStake env txOut tx.vin.headI.prevout.n tx
            m.1 && m.2
          | none => false
        else false
      signedByFirstKey || validCheat
    | none => signedByFirstKey || false
  else signedByFirstKey || false

/-! ## Concrete chain fixtures used by witnesses, counterexamples and
failing-input evaluations. -/

/-- Previous-block hash of fork A. -/
def hashA : List Nat := List.replicate 32 17

/-- Previous-block hash of fork B. -/
def hashB : List Nat := List.replicate 32 18

/-- Txid of the staked source coin. -/
def srcTxid : List Nat := List.replicate 32 7

/-- Hash of the block confirming the source coin. -/
def srcBlockHash : List Nat := List.replicate 32 3

/-- The source coin's locking script (resolved by `Solver` as pay-to-key). -/
def srcCoinScript : CScript := CScript.raw [0xAA]

/-- The source coin's public key, as `Solver` returns it. -/
def srcCoinKey : List Nat := 2 :: List.replicate 32 9

/-- The destination key of the guarded reward output. -/
def destKey : List Nat := 3 :: List.replicate 32 11

/-- The confirmed source transaction holding the staked coin at output 0. -/
def srcCoinTx : CTransaction :=
  { vin := [], vout := [{ nValue := 100, scriptPubKey := srcCoinScript }] }

/-- A stake transaction claiming (source height 10 via a 1-byte LE chunk,
target height `blk` via a 1-byte LE chunk, previous block `ph`), spending
output 0 of the source coin.  The trailing output is the OP_RETURN metadata
output: one push wrapping the inner chunk script
`[tag][srcHeight][targetHeight][prevHash]`. -/
def mkStakeTx (blk : Nat) (ph : List Nat) : CTransaction :=
  { vin := [{ prevout := { hash := srcTxid, n := 0 }, scriptSig := [] }],
    vout := [{ nValue := 50, scriptPubKey := CScript.raw [] },
             { nValue := 0,
               scriptPubKey := CScript.raw (OP_RETURN ::
                 pushData ([1, OPRETTYPE_STAKEPARAMS, 1, 10, 1, blk, 32] ++ ph)) }] }

/-- Stake transaction T1: source height 10, target height 100, fork A. -/
def stakeTxA : CTransaction := mkStakeTx 100 hashA

/-- Stake transaction T2: the same source coin, target height 20, fork B. -/
def stakeTxB : CTransaction := mkStakeTx 20 hashB

/-- A stake transaction whose target height 1 is BELOW its source height 10. -/
def stakeTxUnderflow : CTransaction := mkStakeTx 1 hashA

/-- A transaction whose metadata has four well-shaped chunks but the wrong
type tag (first chunk `[2]` instead of `[OPRETTYPE_STAKEPARAMS]`). -/
def stakeTxBadTag : CTransaction :=
  { vin := [{ prevout := { hash := srcTxid, n := 0 }, scriptSig := [] }],
    vout := [{ nValue := 50, scriptPubKey := CScript.raw [] },
             { nValue := 0,
               scriptPubKey := CScript.raw (OP_RETURN ::
                 pushData ([1, 2, 1, 10, 1, 100, 32] ++ hashA)) }] }

/-- The concrete chain environment: the source coin is confirmed at height 10,
its spending condition resolves to bare pay-to-key, signatures verify, the
minimum stake age is 5 and the data-carrier cap is 256 bytes. -/
def testEnv : ChainEnv :=
  { getTransaction := fun h => if h = srcTxid then some (srcCoinTx, srcBlockHash) else none
    blockIndex := fun bh => if bh = srcBlockHash then some 10 else none
    solver := fun s => if s = srcCoinScript then some (TxnOutType.pubkey, [srcCoinKey]) else none
    fullyValid := fun _ => true
    verifyScript := fun _ _ _ => true
    branchId := fun _ => 0
    hashUtxo := fun h n => h ++ [n]
    serializeTx := fun _ => [0xCA, 0xFE]
    deserializeTx := fun _ => none
    getCryptoCondition := fun _ => false
    getCCParams := fun _ _ => none
    minStakeAge := 5
    maxDatacarrierBytes := 256 }

/-- The environment with the source-transaction lookup failing
(`UnresolvedLookup` of spec section 7). -/
def envNoLookup : ChainEnv := { testEnv with getTransaction := fun _ => none }

/-- The guarded reward output built from stake transaction T1: records the
source-coin fingerprint, fork A's hash, and target height 100 (LE chunk). -/
def guardedOut : CTxOut := (MakeGuardedOutput testEnv 50 destKey stakeTxA).getD default

/-- The coinbase reward transaction carrying the guarded output at index 0. -/
def rewardTx : CTransaction :=
  { vin := [{ prevout := { hash := zero32, n := 0xFFFFFFFF }, scriptSig := [] }],
    vout := [guardedOut] }

/-! ## Observers used only to state properties. -/

/-- Total byte size of a chunk vector (the quantity the C++ `bytesTotal`
accumulates). -/
def chunkBytes (vData : List (List Nat)) : Nat := (vData.map List.length).sum

/-- Follows the spec's words (sections 4.1/4.5): reparse an inner chunk script
as a sequence of data operations, small-integer opcodes normalized to their
1-byte value, recovering the chunk sequence — used to state that the evidence
output really carries `[evidenceTag, serializedTx]`.  `fuel` bounds the
operation count; callers pass the byte length. -/
def parseDataPushesF : Nat → List Nat → Option (List (List Nat))
  | _, [] => some []
  | 0, _ :: _ => none
  | fuel + 1, b :: r =>
    match getOp (b :: r) with
    | none => none
    | some (op, vch, rest) =>
      if IsData op then
        let vch := if OP_1 ≤ op ∧ op ≤ OP_16 then [op - OP_1 + 1] else vch
        (parseDataPushesF fuel rest).map (vch :: ·)
      else none

/-- `parseDataPushesF` at its standard fuel. -/
def parseDataPushes (bytes : List Nat) : Option (List (List Nat)) :=
  parseDataPushesF bytes.length bytes

/-! ## Helper lemmas. -/

/-- The height-reconstruction loop of the detector collapses every chunk to 0:
its accumulator starts at 0 and `0 << (8 + byte) = 0` at every step. -/
theorem reconstructHeight_eq_zero (chunk : List Nat) : reconstructHeight chunk = 0 := by
  unfold reconstructHeight
  induction chunk with
  | nil => rfl
  | cons b t ih =>
    simpa [List.foldl_cons, Nat.zero_shiftLeft] using ih

/-! ## Claim C1: the spend authorizer. -/

/-- C1: the claim states `CoinbaseGuardValidate` authorizes a spend if and only
if the fulfillment came from the destination key's branch or attached evidence
re-validates as `{matches, cheating} = {true, true}`, rejecting everything
else.  The code instead hard-codes `signedByFirstKey = true` (line 324, against
its own comment), so the authorizer returns true for EVERY spending
transaction, input index and environment — no signature-branch inspection and
no evidence check can ever cause rejection. -/
theorem coinbaseGuardValidate_always_authorizes :
    ∀ (env : ChainEnv) (tx : CTransaction) (nIn : Nat),
      CoinbaseGuardValidate env tx nIn = true := by
  intro env tx nIn
  simp only [CoinbaseGuardValidate]
  split
  · split <;> simp
  · simp

/-! ## Claim C2: the cheat-symmetry boundary of the detector. -/

/-- C2: the claim requires that a fingerprint-matching candidate with a target
height strictly BELOW the recorded target height never yields a cheating
verdict.  In the code the recorded height is reconstructed by
`height << (8 + byte)` (line 260, operator precedence) and therefore always
reads as 0, so the candidate `stakeTxB` — same source coin, different
prevHash, target height 20 strictly below the recorded 100 — is declared
`{matches: true, cheating: true}`. -/
theorem detector_cheats_below_recorded_height :
    (GetStakeParams testEnv stakeTxA default).2.blkHeight = 100 ∧
    (GetStakeParams testEnv stakeTxB default).2.blkHeight = 20 ∧
    (GetStakeParams testEnv stakeTxB default).2.prevHash ≠
      (GetStakeParams testEnv stakeTxA default).2.prevHash ∧
    guardedOut.scriptPubKey.ccParams.map (List.map COptCCParams.vData) =
      some [[testEnv.hashUtxo srcTxid 0, hashA, guardHeightChunk 100]] ∧
    ValidateMatchingStake testEnv rewardTx 0 stakeTxB = (true, true) := by
  refine ⟨by decide, by decide, by decide, by decide, by decide⟩

/-! ## Claim C3: the height round-trip. -/

/-- C3: the claim states that the little-endian 4-byte height chunk written by
`MakeGuardedOutput` is reconstructed to the same value by the loop in
`ValidateMatchingStake`.  It is not: the reconstruction loop computes
`height << (8 + byte)` (line 260), which collapses every chunk to 0, so the
round-trip fails at every nonzero height — at height 1 it returns 0. -/
theorem heightRoundTrip_collapses_to_zero :
    (∀ h : Nat, reconstructHeight (guardHeightChunk h) = 0) ∧
    reconstructHeight (guardHeightChunk 1) ≠ 1 := by
  refine ⟨fun h => reconstructHeight_eq_zero _, ?_⟩
  rw [reconstructHeight_eq_zero]
  decide

/-! ## Claim C4: equal-claim idempotence. -/

/-- C4: the claim states that re-submitting the identical stake claim yields
`{matches: true, cheating: false}` and no attached evidence.  The
cheating-false and no-evidence halves hold, but the code returns
`{matches: false, cheating: false}`: the recorded height 100 is reconstructed
as 0 (line 260), so the equality test of line 271 (`100 == 0`) fails and the
legitimate re-broadcast is not even recognized as a match. -/
theorem detector_equal_claim_not_matched :
    (GetStakeParams testEnv stakeTxA default).2.blkHeight = 100 ∧
    (GetStakeParams testEnv stakeTxA default).2.prevHash = hashA ∧
    ValidateMatchingStake testEnv rewardTx 0 stakeTxA = (false, false) ∧
    MakeCheatEvidence testEnv default rewardTx 0 stakeTxA = default := by
  refine ⟨by decide, by decide, by decide, by decide⟩

/-! ## Claim C5: the minimum-stake-age requirement. -/

/-- C5: the claim states validation requires the exact (non-wrapping)
difference `targetHeight - sourceHeight` to be at least the minimum stake age,
so any transaction with target below source must fail.  The code subtracts in
`uint32_t` (line 157): for `stakeTxUnderflow` the decoded target height is 1
and source height 10, the wrapped difference is `2^32 - 9`, the age check
passes, and the whole validation (signature check included) succeeds. -/
theorem stakeAge_underflow_accepted :
    (GetStakeParams testEnv stakeTxUnderflow default).2.srcHeight = 10 ∧
    (GetStakeParams testEnv stakeTxUnderflow default).2.blkHeight = 1 ∧
    sub32 1 10 = 2 ^ 32 - 9 ∧
    (ValidateStakeTransaction testEnv stakeTxUnderflow default true).1 = true := by
  refine ⟨by decide, by decide, by decide, by decide⟩

/-! ## Claim C9: validator monotonicity in the signature flag. -/

/-- C9: `validateSig` only gates the final `VerifyScript` conjunct (line 168);
every other check is identical and deterministic over the same environment, so
success with the signature check required implies success with it dropped. -/
theorem validateStake_monotone :
    ∀ (env : ChainEnv) (tx : CTransaction) (sp0 : CStakeParams),
      (ValidateStakeTransaction env tx sp0 true).1 = true →
      (ValidateStakeTransaction env tx sp0 false).1 = true := by
  intro env tx sp0 h
  simp only [ValidateStakeTransaction, Bool.not_true, Bool.false_or,
    Bool.not_false, Bool.true_or, Bool.and_true, Bool.and_eq_true] at h ⊢
  exact h.1

/-- Witness for C9 at a concrete accepted stake transaction. -/
theorem validateStake_monotone_witness :
    (ValidateStakeTransaction testEnv stakeTxB default false).1 = true :=
  validateStake_monotone testEnv stakeTxB default (by decide)

/-! ## Claim C8: the out-parameter on failure. -/

/-- On a false return from `GetStakeParams`, the out-parameter is either the
caller's original value (structural failure before the decode, line 125) or
the sentinel-invalid decode it assigned at line 122. -/
theorem getStakeParams_false_frame (env : ChainEnv) (tx : CTransaction)
    (sp0 : CStakeParams) :
    (GetStakeParams env tx sp0).1 = false →
    (GetStakeParams env tx sp0).2 = sp0 ∨
      ((GetStakeParams env tx sp0).2).IsValid = false := by
  unfold GetStakeParams
  split
  · split
    · split
      · intro h
        right
        exact h
      · intro _
        left
        rfl
    · intro _
      left
      rfl
  · intro _
    left
    rfl

/-- The `stakeParams` reference after any call to `ValidateStakeTransaction`
is the caller's original value, a sentinel-invalid decode, or (whenever the
decode of line 142 succeeded) the successfully decoded parameters with at most
the staking key replaced by the resolved source key (lines 160-163). -/
theorem VSTpre_outParam_cases (env : ChainEnv) (tx : CTransaction)
    (sp0 : CStakeParams) :
    (VSTpre env tx sp0).2.1 = sp0 ∨
    ((VSTpre env tx sp0).2.1).IsValid = false ∨
    ((GetStakeParams env tx sp0).1 = true ∧
      ∃ k, (VSTpre env tx sp0).2.1 = { (GetStakeParams env tx sp0).2 with pk := k }) := by
  unfold VSTpre
  rcases hg : GetStakeParams env tx sp0 with ⟨b, sp⟩
  cases b
  · have := getStakeParams_false_frame env tx sp0
    rw [hg] at this
    rcases this rfl with h | h
    · left
      simpa using h
    · right
      left
      simpa using h
  · right
    right
    refine ⟨rfl, ?_⟩
    dsimp only
    repeat' split
    all_goals exact ⟨_, rfl⟩

/-- C8 counterexample: the claim states a failing validation leaves no state
in the out-parameter that a caller could mistake for a valid decode.  With the
source-transaction lookup failing (an `UnresolvedLookup` failure after a
successful decode), the call fails yet the out-parameter holds the full,
`IsValid`-true decoded parameters, no longer the caller's original value. -/
theorem validateStake_outParam_counterexample :
    (ValidateStakeTransaction envNoLookup stakeTxA default true).1 = false ∧
    ((ValidateStakeTransaction envNoLookup stakeTxA default true).2).IsValid = true ∧
    (ValidateStakeTransaction envNoLookup stakeTxA default true).2 ≠ default := by
  refine ⟨by decide, by decide, by decide⟩

/-- C8 amended: if `ValidateStakeTransaction` fails, the out-parameter holds
the caller's original value, a sentinel-invalid decode, or — when the metadata
decode itself succeeded and a later stage failed — the successfully decoded
parameters (with at most the staking key adopted from the source output), so
callers must rely on the returned flag, not on the out-parameter. -/
theorem validateStake_outParam_on_failure :
    ∀ (env : ChainEnv) (tx : CTransaction) (sp0 : CStakeParams) (vs : Bool),
      (ValidateStakeTransaction env tx sp0 vs).1 = false →
      (ValidateStakeTransaction env tx sp0 vs).2 = sp0 ∨
      ((ValidateStakeTransaction env tx sp0 vs).2).IsValid = false ∨
      ((GetStakeParams env tx sp0).1 = true ∧
        ∃ k, (ValidateStakeTransaction env tx sp0 vs).2
              = { (GetStakeParams env tx sp0).2 with pk := k }) := by
  intro env tx sp0 vs _
  simpa only [ValidateStakeTransaction] using VSTpre_outParam_cases env tx sp0

/-- Witness for C8's amended statement at a concrete failing call. -/
theorem validateStake_outParam_on_failure_witness :
    (ValidateStakeTransaction envNoLookup stakeTxA default true).2 = default ∨
    ((ValidateStakeTransaction envNoLookup stakeTxA default true).2).IsValid = false ∨
    ((GetStakeParams envNoLookup stakeTxA default).1 = true ∧
      ∃ k, (ValidateStakeTransaction envNoLookup stakeTxA default true).2
            = { (GetStakeParams envNoLookup stakeTxA default).2 with pk := k }) :=
  validateStake_outParam_on_failure envNoLookup stakeTxA default true (by decide)

/-! ## Claim C10: the cumulative data-carrier size cap. -/

/-- `chunkBytes` of an empty chunk vector. -/
theorem chunkBytes_nil : chunkBytes [] = 0 := rfl

/-- `chunkBytes` of a cons. -/
theorem chunkBytes_cons (v : List Nat) (l : List (List Nat)) :
    chunkBytes (v :: l) = v.length + chunkBytes l := by
  simp [chunkBytes]

/-- Loop invariant of lines 41-51: when the extraction loop succeeds, the
chunks it appended beyond the accumulator account for exactly the growth of
`bytesTotal`, and the final total stays within the cap. -/
theorem unpackLoopF_success_bytes :
    ∀ (fuel cap : Nat) (pc : List Nat) (bt : Nat) (acc : List (List Nat)),
      (unpackLoopF fuel cap pc bt acc).1 = true →
      ∃ extra, (unpackLoopF fuel cap pc bt acc).2 = acc ++ extra ∧
        bt + chunkBytes extra ≤ cap := by
  intro fuel cap
  induction fuel with
  | zero =>
    intro pc bt acc h
    rw [unpackLoopF] at h ⊢
    by_cases h1 : cap < bt
    · rw [if_pos h1] at h
      simp at h
    · rw [if_neg h1] at h ⊢
      by_cases h2 : pc = []
      · rw [if_pos h2] at h ⊢
        exact ⟨[], by simp, by rw [chunkBytes_nil]; omega⟩
      · rw [if_neg h2] at h
        simp at h
  | succ n ih =>
    intro pc bt acc h
    rw [unpackLoopF] at h ⊢
    by_cases h1 : cap < bt
    · rw [if_pos h1] at h
      simp at h
    · rw [if_neg h1] at h ⊢
      by_cases h2 : pc = []
      · rw [if_pos h2] at h ⊢
        exact ⟨[], by simp, by rw [chunkBytes_nil]; omega⟩
      · rw [if_neg h2] at h ⊢
        dsimp only at h ⊢
        rcases hop : getOp pc with _ | ⟨op, vch, rest⟩
        · rw [hop] at h
          simp at h
        · rw [hop] at h
          dsimp only at h ⊢
          by_cases hd : IsData op = true
          · rw [if_pos hd] at h ⊢
            by_cases hsmall : OP_1 ≤ op ∧ op ≤ OP_16
            · rw [if_pos hsmall] at h ⊢
              obtain ⟨extra, he, hb⟩ := ih rest _ _ h
              refine ⟨[op - OP_1 + 1] :: extra, ?_, ?_⟩
              · rw [he]
                simp
              · rw [chunkBytes_cons]
                simp only [List.length_cons, List.length_nil] at hb ⊢
                omega
            · rw [if_neg hsmall] at h ⊢
              obtain ⟨extra, he, hb⟩ := ih rest _ _ h
              refine ⟨vch :: extra, ?_, ?_⟩
              · rw [he]
                simp
              · rw [chunkBytes_cons]
                omega
          · rw [if_neg hd] at h
            simp at h

/-- C10: `UnpackStakeOpRet` accepts a metadata blob only when the cumulative
byte size of its (normalized) chunks stays within the `nMaxDatacarrierBytes`
cap; any blob whose chunks total more than the cap is rejected before the
transaction can count as a stake transaction. -/
theorem unpack_enforces_size_cap :
    ∀ (cap : Nat) (tx : CTransaction) (vData : List (List Nat)),
      UnpackStakeOpRet cap tx = some vData → chunkBytes vData ≤ cap := by
  intro cap tx vData h
  unfold UnpackStakeOpRet at h
  rcases hl : tx.vout.getLast? with _ | lastOut
  · rw [hl] at h
    exact absurd h (by simp)
  rw [hl] at h
  dsimp only at h
  rcases hg : GetOpretData lastOut.scriptPubKey with _ | l
  · rw [hg] at h
    exact absurd h (by simp)
  rw [hg] at h
  rcases l with _ | ⟨d, t⟩
  · simp at h
  rcases t with _ | ⟨d2, t2⟩
  · dsimp only at h
    split_ifs at h with hc
    · obtain ⟨hloop, _, _⟩ := hc
      obtain ⟨extra, he, hb⟩ := unpackLoopF_success_bytes d.length cap d 0 [] hloop
      have hv : vData = (unpackLoopF d.length cap d 0 []).2 := by
        simpa using h.symm
      rw [hv, he]
      simpa using hb
  · simp at h

/-- Witness for C10: the concrete stake transaction's four chunks total
35 bytes, within the 256-byte cap of the test environment. -/
theorem unpack_enforces_size_cap_witness :
    UnpackStakeOpRet 256 stakeTxA = some [[OPRETTYPE_STAKEPARAMS], [10], [100], hashA] ∧
    chunkBytes [[OPRETTYPE_STAKEPARAMS], [10], [100], hashA] ≤ 256 :=
  ⟨by decide, unpack_enforces_size_cap 256 stakeTxA _ (by decide)⟩

/-! ## Claim C6: totality of the metadata decode and the sentinel guarantee. -/

/-- A successful unpack always yields between `STAKE_MINPARAMS` and
`STAKE_MAXPARAMS` chunks (line 54): the chunk-count constraint is enforced
before any metadata parsing happens. -/
theorem unpack_length_bounds :
    ∀ (cap : Nat) (tx : CTransaction) (vData : List (List Nat)),
      UnpackStakeOpRet cap tx = some vData →
      STAKE_MINPARAMS ≤ vData.length ∧ vData.length ≤ STAKE_MAXPARAMS := by
  intro cap tx vData h
  unfold UnpackStakeOpRet at h
  rcases hl : tx.vout.getLast? with _ | lastOut
  · rw [hl] at h
    exact absurd h (by simp)
  rw [hl] at h
  dsimp only at h
  rcases hg : GetOpretData lastOut.scriptPubKey with _ | l
  · rw [hg] at h
    exact absurd h (by simp)
  rw [hg] at h
  rcases l with _ | ⟨d, t⟩
  · simp at h
  rcases t with _ | ⟨d2, t2⟩
  · dsimp only at h
    split_ifs at h with hc
    · obtain ⟨_, hmin, hmax⟩ := hc
      have hv : vData = (unpackLoopF d.length cap d 0 []).2 := by
        simpa using h.symm
      rw [hv]
      exact ⟨hmin, hmax⟩
  · simp at h

/-- The constructor embedding `CStakeParams.ofChunks` is total on chunk vectors
of length at least 4 — no vector access of lines 62-108 can be out of range
there — and whenever the chunk vector violates the structural well-formedness
of spec section 3, the constructed value is sentinel-invalid. -/
theorem ofChunks_total_and_sentinel :
    ∀ (vData : List (List Nat)), 4 ≤ vData.length →
      ∃ p, CStakeParams.ofChunks vData = some p ∧
        (chunksWellFormed vData = false → p.IsValid = false) := by
  intro vData hlen
  rcases vData with _ | ⟨a, _ | ⟨b, _ | ⟨c, _ | ⟨d, t⟩⟩⟩⟩
  · simp at hlen
  · simp at hlen
  · simp at hlen
  · simp at hlen
  simp only [CStakeParams.ofChunks, List.getElem?_cons_zero, List.getElem?_cons_succ]
  by_cases h1 : a.length = 1 ∧ a.headI = OPRETTYPE_STAKEPARAMS
  case neg =>
    rw [if_neg h1]
    exact ⟨default, rfl, fun _ => rfl⟩
  rw [if_pos h1]
  by_cases h2 : b.length ≤ 4
  case neg =>
    rw [if_neg h2]
    exact ⟨default, rfl, fun _ => rfl⟩
  rw [if_pos h2]
  by_cases h3 : c.length ≤ 4
  case neg =>
    rw [if_neg h3]
    exact ⟨default, rfl, fun _ => rfl⟩
  rw [if_pos h3]
  by_cases h4 : d.length = 32 ∧
      ((a :: b :: c :: d :: t).length = STAKE_MINPARAMS ∨
        ((a :: b :: c :: d :: t).length = STAKE_MAXPARAMS ∧
          ((a :: b :: c :: d :: t).getD 4 []).length = 33))
  case neg =>
    rw [if_neg h4]
    exact ⟨default, rfl, fun _ => rfl⟩
  rw [if_pos h4]
  by_cases h5 : (a :: b :: c :: d :: t).length = 4
  · rw [if_pos h5]
    refine ⟨_, rfl, fun hwf => ?_⟩
    have ht : t = [] := by
      simpa using h5
    subst ht
    simp [chunksWellFormed, h1.1, h1.2, h2, h3, h4.1] at hwf
  · rw [if_neg h5]
    by_cases h6 : ((a :: b :: c :: d :: t).getD 4 []).length = 33
    · rw [if_pos h6]
      by_cases h7 : CPubKey.IsValid (CPubKey.mk ((a :: b :: c :: d :: t).getD 4 []))
      · rw [if_pos h7]
        refine ⟨_, rfl, fun hwf => ?_⟩
        have h8 : (a :: b :: c :: d :: t).length = STAKE_MAXPARAMS := by
          rcases h4.2 with h | h
          · exact absurd h h5
          · exact h.1
        have ht : ∃ e, t = [e] := by
          simp only [STAKE_MAXPARAMS, List.length_cons] at h8
          rcases t with _ | ⟨e, _ | _⟩ <;> simp_all
        obtain ⟨e, rfl⟩ := ht
        simp only [List.getD_cons_succ, List.getD_cons_zero] at h6 h7
        simp [chunksWellFormed, h1.1, h1.2, h2, h3, h4.1, h6, h7] at hwf
      · rw [if_neg h7]
        exact ⟨_, rfl, fun _ => rfl⟩
    · rw [if_neg h6]
      exact ⟨_, rfl, fun _ => rfl⟩

/-- C6: for every transaction accepted by `UnpackStakeOpRet`, the subsequent
`CStakeParams` construction performed by `GetStakeParams` is total — the chunk
count is already confined to 4..5, so no chunk access of lines 62-108 is out
of range and the decode cannot throw — and every structural violation (wrong
tag, over-long height chunk, wrong-sized hash chunk, or a fifth chunk that is
not a valid 33-byte public key) produces the sentinel-invalid value, never a
trustable partially-filled one. -/
theorem stakeDecode_total_and_sentinel :
    ∀ (cap : Nat) (tx : CTransaction) (vData : List (List Nat)),
      UnpackStakeOpRet cap tx = some vData →
      (STAKE_MINPARAMS ≤ vData.length ∧ vData.length ≤ STAKE_MAXPARAMS) ∧
      ∃ p, CStakeParams.ofChunks vData = some p ∧
        (chunksWellFormed vData = false → p.IsValid = false) :=
  fun cap tx vData h =>
    ⟨unpack_length_bounds cap tx vData h,
     ofChunks_total_and_sentinel vData (unpack_length_bounds cap tx vData h).1⟩

/-- Witness for C6 at a concrete transaction whose metadata carries a wrong
type tag: the decode stays total and yields the sentinel. -/
theorem stakeDecode_total_and_sentinel_witness :
    UnpackStakeOpRet 256 stakeTxBadTag = some [[2], [10], [100], hashA] ∧
    ((STAKE_MINPARAMS ≤ ([[2], [10], [100], hashA] : List (List Nat)).length ∧
      ([[2], [10], [100], hashA] : List (List Nat)).length ≤ STAKE_MAXPARAMS) ∧
     ∃ p, CStakeParams.ofChunks [[2], [10], [100], hashA] = some p ∧
       (chunksWellFormed [[2], [10], [100], hashA] = false → p.IsValid = false)) :=
  ⟨by decide, stakeDecode_total_and_sentinel 256 stakeTxBadTag _ (by decide)⟩

/-! ## Claim C7: the cheat-evidence frame property. -/

/-- A serialized push is never empty. -/
theorem pushData_ne_nil (d : List Nat) : pushData d ≠ [] := by
  unfold pushData
  split_ifs <;> simp

/-- A serialized push adds at most 5 framing bytes. -/
theorem pushData_length_le (d : List Nat) : (pushData d).length ≤ d.length + 5 := by
  unfold pushData
  split_ifs <;> simp

/-- The push opcode is always within the literal-push range. -/
theorem pushOpcode_le (d : List Nat) : pushOpcode d ≤ OP_PUSHDATA4 := by
  unfold pushOpcode OP_PUSHDATA1 OP_PUSHDATA2 OP_PUSHDATA4
  split_ifs <;> omega

/-- Parsing inverts serialization: one `getOp` step on a serialized push
(of a chunk shorter than `2^32` bytes) recovers exactly the chunk and leaves
the rest untouched. -/
theorem getOp_pushData (d rest : List Nat) (hd : d.length < 2 ^ 32) :
    getOp (pushData d ++ rest) = some (pushOpcode d, d, rest) := by
  have hlen : ¬ (d ++ rest).length < d.length := by
    simp only [List.length_append]
    omega
  have htake : (d ++ rest).take d.length = d := List.take_left d rest
  have hdrop : (d ++ rest).drop d.length = rest := List.drop_left d rest
  unfold pushData pushOpcode
  split_ifs with h1 h2 h3
  · simp only [List.cons_append, getOp]
    rw [if_pos h1, if_neg hlen, htake, hdrop]
  · have he1 : ¬ ((OP_PUSHDATA1 : Nat) < OP_PUSHDATA1) := lt_irrefl _
    simp only [List.cons_append, getOp]
    rw [if_neg he1]
    simp only [if_true]
    rw [if_neg hlen, htake, hdrop]
  · have he1 : ¬ ((OP_PUSHDATA2 : Nat) < OP_PUSHDATA1) := by
      unfold OP_PUSHDATA1 OP_PUSHDATA2
      omega
    have he2 : (OP_PUSHDATA2 : Nat) ≠ OP_PUSHDATA1 := by
      unfold OP_PUSHDATA1 OP_PUSHDATA2
      omega
    simp only [List.cons_append, getOp]
    rw [if_neg he1, if_neg he2]
    simp only [if_true]
    have hn : d.length % 256 + 256 * (d.length / 256) = d.length := Nat.mod_add_div _ _
    rw [hn, if_neg hlen, htake, hdrop]
  · have he1 : ¬ ((OP_PUSHDATA4 : Nat) < OP_PUSHDATA1) := by
      unfold OP_PUSHDATA1 OP_PUSHDATA4
      omega
    have he2 : (OP_PUSHDATA4 : Nat) ≠ OP_PUSHDATA1 := by
      unfold OP_PUSHDATA1 OP_PUSHDATA4
      omega
    have he3 : (OP_PUSHDATA4 : Nat) ≠ OP_PUSHDATA2 := by
      unfold OP_PUSHDATA2 OP_PUSHDATA4
      omega
    simp only [List.cons_append, getOp]
    rw [if_neg he1, if_neg he2, if_neg he3]
    simp only [if_true]
    have hn : d.length % 256 + 256 * (d.length / 256 % 256) +
        65536 * (d.length / 65536 % 256) + 16777216 * (d.length / 16777216 % 256)
        = d.length := by
      omega
    rw [hn, if_neg hlen, htake, hdrop]

/-- The opret extraction of the evidence output recovers exactly one chunk:
the inner script `[evidenceTag, serializedTx]`. -/
theorem getOpretData_cheatVout (env : ChainEnv) (cheatTx : CTransaction)
    (hlen : (env.serializeTx cheatTx).length < 2 ^ 31) :
    GetOpretData (cheatVout env cheatTx).scriptPubKey
      = some [pushSmallInt OPRETTYPE_STAKECHEAT ++ pushData (env.serializeTx cheatTx)] := by
  set ser := env.serializeTx cheatTx with hser
  set inner := pushSmallInt OPRETTYPE_STAKECHEAT ++ pushData ser with hinner
  have hinnerlen : inner.length < 2 ^ 32 := by
    have h1 := pushData_length_le ser
    simp only [hinner, List.length_append, pushSmallInt, List.length_cons, List.length_nil]
    omega
  have hgetOp : getOp (pushData inner ++ []) = some (pushOpcode inner, inner, []) :=
    getOp_pushData inner [] hinnerlen
  rw [List.append_nil] at hgetOp
  show GetOpretData (CScript.raw (OP_RETURN :: pushData inner)) = some [inner]
  unfold GetOpretData
  dsimp only
  rw [if_pos rfl]
  rcases hpd : pushData inner with _ | ⟨b, r⟩
  · exact absurd hpd (pushData_ne_nil inner)
  rw [hpd] at hgetOp
  simp only [List.length_cons, collectOpsF, hgetOp]
  rfl

/-- Reparsing the inner evidence script recovers the normalized evidence tag
chunk and the full transaction serialization. -/
theorem parse_evidence_chunks (ser : List Nat) (hlen : ser.length < 2 ^ 31) :
    parseDataPushes (pushSmallInt OPRETTYPE_STAKECHEAT ++ pushData ser)
      = some [[OPRETTYPE_STAKECHEAT], ser] := by
  have hserlen : ser.length < 2 ^ 32 := by omega
  have hgetOp : getOp (pushData ser ++ []) = some (pushOpcode ser, ser, []) :=
    getOp_pushData ser [] hserlen
  rw [List.append_nil] at hgetOp
  have hople := pushOpcode_le ser
  show parseDataPushes (82 :: pushData ser) = some [[2], ser]
  unfold parseDataPushes
  rcases hpd : pushData ser with _ | ⟨b, r⟩
  · exact absurd hpd (pushData_ne_nil ser)
  rw [hpd] at hgetOp
  simp only [List.length_cons, parseDataPushesF]
  have h82 : getOp (82 :: b :: r) = some (82, [], b :: r) := by
    simp [getOp, OP_PUSHDATA1, OP_PUSHDATA2, OP_PUSHDATA4]
  rw [h82]
  dsimp only
  have hd82 : IsData 82 = true := by decide
  rw [if_pos hd82]
  have hsm82 : OP_1 ≤ 82 ∧ 82 ≤ OP_16 := by decide
  rw [if_pos hsm82]
  simp only [parseDataPushesF, hgetOp]
  have hdop : IsData (pushOpcode ser) = true := by
    simp only [IsData, Bool.or_eq_true, decide_eq_true_eq]
    left
    exact hople
  rw [if_pos hdop]
  have hnotsmall : ¬ (OP_1 ≤ pushOpcode ser ∧ pushOpcode ser ≤ OP_16) := by
    unfold OP_PUSHDATA4 at hople
    unfold OP_1 OP_16
    omega
  rw [if_neg hnotsmall]
  rfl

/-- C7: `MakeCheatEvidence` appends exactly one zero-value unspendable
OP_RETURN output carrying the evidence tag and the full serialization of the
cheating stake transaction when the detector's verdict is
`{matches: true, cheating: true}`, and in every other case leaves the spending
transaction completely unchanged. -/
theorem makeCheatEvidence_frame :
    ∀ (env : ChainEnv) (mtx ccTx : CTransaction) (voutNum : Nat) (cheatTx : CTransaction),
      (env.serializeTx cheatTx).length < 2 ^ 31 →
      (ValidateMatchingStake env ccTx voutNum cheatTx = (true, true) →
        MakeCheatEvidence env mtx ccTx voutNum cheatTx
          = { mtx with vout := mtx.vout ++ [cheatVout env cheatTx] } ∧
        (cheatVout env cheatTx).nValue = 0 ∧
        (cheatVout env cheatTx).scriptPubKey.IsOpReturn = true ∧
        GetOpretData (cheatVout env cheatTx).scriptPubKey
          = some [pushSmallInt OPRETTYPE_STAKECHEAT ++ pushData (env.serializeTx cheatTx)] ∧
        parseDataPushes (pushSmallInt OPRETTYPE_STAKECHEAT ++ pushData (env.serializeTx cheatTx))
          = some [[OPRETTYPE_STAKECHEAT], env.serializeTx cheatTx]) ∧
      (ValidateMatchingStake env ccTx voutNum cheatTx ≠ (true, true) →
        MakeCheatEvidence env mtx ccTx voutNum cheatTx = mtx) := by
  intro env mtx ccTx voutNum cheatTx hlen
  constructor
  · intro hvms
    refine ⟨?_, rfl, ?_, getOpretData_cheatVout env cheatTx hlen,
      parse_evidence_chunks (env.serializeTx cheatTx) hlen⟩
    · unfold MakeCheatEvidence
      rw [hvms]
      rfl
    · unfold cheatVout CScript.IsOpReturn
      simp
  · intro hvms
    unfold MakeCheatEvidence
    rcases hv : ValidateMatchingStake env ccTx voutNum cheatTx with ⟨a, b⟩
    have : ¬ (a = true ∧ b = true) := by
      intro ⟨ha, hb⟩
      exact hvms (by rw [hv, ha, hb])
    rcases a <;> rcases b <;> simp_all

/-- Witness for C7 at the concrete cheating pair: the evidence output is
appended to the (empty) slashing transaction. -/
theorem makeCheatEvidence_frame_witness :
    MakeCheatEvidence testEnv default rewardTx 0 stakeTxB
      = { (default : CTransaction) with
          vout := (default : CTransaction).vout ++ [cheatVout testEnv stakeTxB] } :=
  ((makeCheatEvidence_frame testEnv default rewardTx 0 stakeTxB (by decide)).1 (by decide)).1
